import Mathlib

/-!
Verification development for the Sahay appointment-scheduling functions
(netlify/functions). Each section embeds one source file's logic as
executable Lean definitions and proves properties about them.
-/

namespace Sahay

/-! ### Generic string helpers (JS semantics) -/

/-- JS `String#toLowerCase()` (ASCII case mapping, as `Char.toLower`). -/
def jsToLower (s : String) : String :=
  String.mk (s.data.map Char.toLower)

/-- JS `String#trim()`: strip leading and trailing whitespace. -/
def jsTrim (s : String) : String :=
  String.mk (((s.data.dropWhile Char.isWhitespace).reverse.dropWhile
    Char.isWhitespace).reverse)

/-- Helper for `jsSplit`: split a character list at every occurrence of
`c`, with `acc` holding the current (reversed) segment. -/
def splitChAux (c : Char) : List Char → List Char → List (List Char)
  | [], acc => [acc.reverse]
  | x :: xs, acc =>
    if x == c then acc.reverse :: splitChAux c xs []
    else splitChAux c xs (x :: acc)

/-- JS `s.split(c)` for a single-character separator. -/
def jsSplit (c : Char) (s : String) : List String :=
  (splitChAux c s.data []).map String.mk

/-- JS `s.includes(c)` / Lean `String.contains`, over the char list. -/
def containsCh (s : String) (c : Char) : Bool :=
  s.data.any (fun x => x == c)

/-- Helper for `containsSub`: does `needle` occur at the head of `hay`? -/
def headMatches : List Char → List Char → Bool
  | [], _ => true
  | _ :: _, [] => false
  | a :: as, b :: bs => a == b && headMatches as bs

/-- Does `needle` occur as a contiguous run anywhere in `hay`? -/
def containsSub (needle : List Char) : List Char → Bool
  | [] => headMatches needle []
  | c :: rest => headMatches needle (c :: rest) || containsSub needle rest

/-- JS `hay.includes(needle)`: substring containment. -/
def substrB (needle hay : String) : Bool :=
  containsSub needle.data hay.data

theorem headMatches_map (f : Char → Char) :
    ∀ (n t : List Char), n.map f = n → headMatches n t = true →
      headMatches n (t.map f) = true := by
  intro n
  induction n with
  | nil => intro t _ _; simp [headMatches]
  | cons a as ih =>
    intro t hfix h
    cases t with
    | nil => simp [headMatches] at h
    | cons b bs =>
      simp only [headMatches, Bool.and_eq_true, beq_iff_eq] at h
      obtain ⟨rfl, h2⟩ := h
      simp only [List.map_cons, List.cons.injEq] at hfix
      simp only [List.map_cons, headMatches, Bool.and_eq_true, beq_iff_eq]
      exact ⟨hfix.1.symm, ih bs hfix.2 h2⟩

theorem containsSub_map (f : Char → Char) (n : List Char) (hfix : n.map f = n) :
    ∀ (t : List Char), containsSub n t = true → containsSub n (t.map f) = true := by
  intro t
  induction t with
  | nil => intro h; simpa [containsSub] using h
  | cons c cs ih =>
    intro h
    simp only [containsSub, Bool.or_eq_true] at h
    simp only [List.map_cons, containsSub, Bool.or_eq_true]
    cases h with
    | inl h =>
      left
      have := headMatches_map f n (c :: cs) hfix h
      simpa using this
    | inr h => right; exact ih h

/-- A lowercase needle found in `s` is also found in `jsToLower s`. -/
theorem substrB_jsToLower (needle s : String)
    (hfix : needle.data.map Char.toLower = needle.data)
    (h : substrB needle s = true) : substrB needle (jsToLower s) = true := by
  unfold substrB jsToLower at *
  exact containsSub_map Char.toLower needle.data hfix s.data h

/-! ### Error classification and retry
Embeds `isTransientError`, `queryWithRetry` and the catch-block status
classification shared verbatim by `getAvailableSlots.ts` and
`getDoctorDetails.ts`. -/

/-- An error value as the handlers see it: `message` and `code` fields
(absent fields modelled as `""`, which is what the `|| ''` fallbacks produce). -/
structure ErrInfo where
  message : String
  code : String
deriving DecidableEq, Repr

/-- `isTransientError` from `getAvailableSlots.ts` / `getDoctorDetails.ts`
lines 15-28. -/
def isTransientError (e : ErrInfo) : Bool :=
  let msg := jsToLower e.message
  substrB "enotfound" msg ||
  substrB "econnrefused" msg ||
  substrB "timeout" msg ||
  substrB "network" msg ||
  e.code == "ENOTFOUND" ||
  e.code == "ECONNREFUSED" ||
  e.code == "ETIMEDOUT"

/-- The catch-block classification (`getAvailableSlots.ts` lines 192-216,
`getDoctorDetails.ts` lines 153-178): HTTP status and `error_type`. -/
def classifyCatch (e : ErrInfo) : Nat × String :=
  if isTransientError e then (503, "DATABASE_TEMPORARILY_UNAVAILABLE")
  else if substrB "timeout" e.message then (504, "REQUEST_TIMEOUT")
  else (500, "UNKNOWN_ERROR")

/-- The `delays` array of `queryWithRetry`. -/
def retryDelays : List Nat := [100, 200, 400]

/-- Trace of one `queryWithRetry` run: final result, number of attempts
made, and the backoff delays actually waited between attempts. -/
structure RetryTrace (α : Type) where
  result : Except ErrInfo α
  attempts : Nat
  delays : List Nat

/-- The body of `queryWithRetry`: `attempt` is the loop counter, the last
argument is `maxAttempts - attempt` (the remaining iterations of the
`for` loop). A `remaining` of `0` means the loop fell through without
returning, which the source only reaches when `maxAttempts = 0` (it then
returns `undefined`; modelled as a sentinel error). -/
def retryGo (f : Nat → Except ErrInfo α) (attempt : Nat) :
    Nat → RetryTrace α
  | 0 => ⟨Except.error ⟨"retry loop exhausted", ""⟩, 0, []⟩
  | remaining + 1 =>
    match f attempt with
    | Except.ok a => ⟨Except.ok a, 1, []⟩
    | Except.error e =>
      if remaining == 0 || !isTransientError e then
        ⟨Except.error e, 1, []⟩
      else
        let t := retryGo f (attempt + 1) remaining
        ⟨t.result, t.attempts + 1, retryDelays.getD attempt 0 :: t.delays⟩

/-- `queryWithRetry(query, maxAttempts)` from `getAvailableSlots.ts` /
`getDoctorDetails.ts` lines 30-46. `f i` is the outcome of the `i`-th
attempt of the wrapped operation. -/
def queryWithRetry (f : Nat → Except ErrInfo α) (maxAttempts : Nat) :
    RetryTrace α :=
  retryGo f 0 maxAttempts

/-- The message-substring patterns `isTransientError` looks for. -/
def transientMsgPatterns : List String :=
  ["enotfound", "econnrefused", "timeout", "network"]

/-- The `error.code` values `isTransientError` accepts. -/
def transientCodes : List String :=
  ["ENOTFOUND", "ECONNREFUSED", "ETIMEDOUT"]

/-- Spec-side reading of the classifier: some listed pattern occurs in the
lowercased message, or the code is one of the listed codes. -/
def matchesTransientPatterns (e : ErrInfo) : Prop :=
  (∃ p ∈ transientMsgPatterns, substrB p (jsToLower e.message) = true) ∨
  e.code ∈ transientCodes

/-- C3: for a failure classified transient on every attempt, `queryWithRetry`
makes exactly 3 attempts with strictly increasing delays 100ms then 200ms,
each equal to `100 * 2 ^ (attempt - 1)`, and the surfaced error is then
classified as the Unavailable outcome (503) by the catch block; for a
failure classified permanent, exactly 1 attempt is made, no delay is
waited, and the error propagates immediately. -/
theorem queryWithRetry_backoff_spec {α : Type} (f g : Nat → Except ErrInfo α)
    (e : ErrInfo)
    (hf : ∀ i, i < 3 → ∃ ei, f i = Except.error ei ∧ isTransientError ei = true)
    (hg : g 0 = Except.error e) (hge : isTransientError e = false) :
    (queryWithRetry f 3).attempts = 3 ∧
    (queryWithRetry f 3).delays = [100, 200] ∧
    List.Pairwise (· < ·) (queryWithRetry f 3).delays ∧
    (∀ i, i < (queryWithRetry f 3).delays.length →
      (queryWithRetry f 3).delays.getD i 0 = 100 * 2 ^ i) ∧
    (∃ e2, (queryWithRetry f 3).result = Except.error e2 ∧
      classifyCatch e2 = (503, "DATABASE_TEMPORARILY_UNAVAILABLE")) ∧
    (queryWithRetry g 3).attempts = 1 ∧
    (queryWithRetry g 3).result = Except.error e ∧
    (queryWithRetry g 3).delays = [] := by
  obtain ⟨e0, he0, ht0⟩ := hf 0 (by omega)
  obtain ⟨e1, he1, ht1⟩ := hf 1 (by omega)
  obtain ⟨e2, he2, ht2⟩ := hf 2 (by omega)
  have hrun : queryWithRetry f 3 =
      ⟨Except.error e2, 3, [100, 200]⟩ := by
    simp [queryWithRetry, retryGo, he0, he1, he2, ht0, ht1, ht2, retryDelays]
  have hrung : queryWithRetry g 3 = ⟨Except.error e, 1, []⟩ := by
    simp [queryWithRetry, retryGo, hg, hge]
  have hd : (queryWithRetry f 3).delays = [100, 200] := by rw [hrun]
  refine ⟨by rw [hrun], hd, ?_, ?_, ?_, by rw [hrung], by rw [hrung],
    by rw [hrung]⟩
  · rw [hd]; decide
  · rw [hd]
    intro i hi
    simp only [List.length_cons, List.length_nil] at hi
    interval_cases i <;> decide
  · refine ⟨e2, by rw [hrun], ?_⟩
    simp [classifyCatch, ht2]

/-- Witness for C3 at a concrete transient failure (a network error) and a
concrete permanent failure (a row-absent error). -/
theorem queryWithRetry_backoff_spec_witness :
    (queryWithRetry (fun _ => (Except.error ⟨"fetch failed: network unreachable", ""⟩ :
        Except ErrInfo Unit)) 3).attempts = 3 ∧
    (queryWithRetry (fun _ => (Except.error ⟨"row not present", "PGRST116"⟩ :
        Except ErrInfo Unit)) 3).attempts = 1 := by
  have h := queryWithRetry_backoff_spec
    (fun _ => (Except.error ⟨"fetch failed: network unreachable", ""⟩ : Except ErrInfo Unit))
    (fun _ => (Except.error ⟨"row not present", "PGRST116"⟩ : Except ErrInfo Unit))
    ⟨"row not present", "PGRST116"⟩
    (fun i _ => ⟨⟨"fetch failed: network unreachable", ""⟩, rfl, by decide⟩)
    rfl (by decide)
  exact ⟨h.1, h.2.2.2.2.2.1⟩

/-- C4 counterexample: a connection-reset error (`ECONNRESET`), which the
claim lists as transient, is classified permanent by the code; likewise a
broken-pipe error and a 5xx response. -/
theorem isTransientError_missing_patterns :
    isTransientError ⟨"read ECONNRESET", "ECONNRESET"⟩ = false ∧
    isTransientError ⟨"write EPIPE (broken pipe)", "EPIPE"⟩ = false ∧
    isTransientError ⟨"Request failed with status code 503", ""⟩ = false := by
  decide

/-- C4 (amended): the classifier marks transient exactly the errors whose
lowercased message contains one of "enotfound", "econnrefused", "timeout",
"network" or whose code is exactly ENOTFOUND, ECONNREFUSED or ETIMEDOUT;
every other error is returned after exactly one attempt with no retry. -/
theorem isTransientError_characterization :
    (∀ e, isTransientError e = true ↔ matchesTransientPatterns e) ∧
    (∀ (e : ErrInfo) (f : Nat → Except ErrInfo Unit),
      f 0 = Except.error e → isTransientError e = false →
      (queryWithRetry f 3).attempts = 1 ∧
      (queryWithRetry f 3).result = Except.error e) := by
  constructor
  · intro e
    simp only [isTransientError, matchesTransientPatterns, transientMsgPatterns,
      transientCodes, Bool.or_eq_true, beq_iff_eq, List.mem_cons, List.mem_singleton,
      List.not_mem_nil, or_false, exists_eq_or_imp, exists_eq_left]
    tauto
  · intro e f hf0 hperm
    constructor <;> simp [queryWithRetry, retryGo, hf0, hperm]

/-- Witness for C4 at concrete errors: a name-resolution failure matches the
patterns; an authorization failure makes one attempt only. -/
theorem isTransientError_characterization_witness :
    matchesTransientPatterns ⟨"getaddrinfo ENOTFOUND db.example.co", ""⟩ ∧
    (queryWithRetry (fun _ => (Except.error ⟨"JWT expired", "401"⟩ :
        Except ErrInfo Unit)) 3).attempts = 1 := by
  refine ⟨(isTransientError_characterization.1 _).mp (by decide), ?_⟩
  exact (isTransientError_characterization.2 ⟨"JWT expired", "401"⟩ _ rfl (by decide)).1

/-- No error value is ever classified as the Timeout outcome
(504, REQUEST_TIMEOUT) by the catch blocks: any message containing
"timeout" is already classified transient, so the Timeout branch is
unreachable and expiry scenarios surface as Unavailable. -/
theorem classifyCatch_not_timeout_all (e : ErrInfo) :
    classifyCatch e ≠ (504, "REQUEST_TIMEOUT") := by
  unfold classifyCatch
  by_cases ht : isTransientError e
  · simp [ht]
  · simp only [ht, if_false]
    by_cases hm : substrB "timeout" e.message = true
    · exfalso
      apply ht
      have hl : substrB "timeout" (jsToLower e.message) = true :=
        substrB_jsToLower "timeout" e.message (by decide) hm
      simp [isTransientError, hl]
    · simp only [Bool.not_eq_true] at hm
      simp [hm]

/-- C9 counterexample: at the canonical expiry scenario — an error whose
message reports a timeout, code ETIMEDOUT — the catch blocks produce the
Unavailable outcome (503, DATABASE_TEMPORARILY_UNAVAILABLE), not the
Timeout outcome (504, REQUEST_TIMEOUT); `classifyCatch_not_timeout_all`
shows no other error value produces it either. -/
theorem classifyCatch_expiry_counterexample :
    classifyCatch ⟨"query timeout: deadline exceeded", "ETIMEDOUT"⟩ =
      (503, "DATABASE_TEMPORARILY_UNAVAILABLE") ∧
    classifyCatch ⟨"query timeout: deadline exceeded", "ETIMEDOUT"⟩ ≠
      (504, "REQUEST_TIMEOUT") := by
  decide

/-- C9 (amended): an error whose message contains "timeout" — the only
shape the 504 branch could ever react to — is classified transient and
surfaces as the Unavailable outcome (503, DATABASE_TEMPORARILY_UNAVAILABLE);
the distinguished Timeout outcome is never produced. -/
theorem classifyCatch_timeout_is_unavailable (e : ErrInfo)
    (h : substrB "timeout" e.message = true) :
    classifyCatch e = (503, "DATABASE_TEMPORARILY_UNAVAILABLE") := by
  have hl : substrB "timeout" (jsToLower e.message) = true :=
    substrB_jsToLower "timeout" e.message (by decide) h
  have ht : isTransientError e = true := by simp [isTransientError, hl]
  simp [classifyCatch, ht]

/-- Witness for the amended C9 at a concrete expiry-style error. -/
theorem classifyCatch_timeout_is_unavailable_witness :
    classifyCatch ⟨"connection timeout after 30000ms", ""⟩ =
      (503, "DATABASE_TEMPORARILY_UNAVAILABLE") :=
  classifyCatch_timeout_is_unavailable ⟨"connection timeout after 30000ms", ""⟩
    (by decide)

/-! ### Slot generation
Embeds the 30-minute slot loop of `getAvailableSlots.ts` lines 105-122. -/

/-- The `while` loop of step 4: from `(currentH, currentM)`, push the pair
and advance by `currentM += 30; if (currentM >= 60) { currentH++;
currentM = 0 }` while `currentH < endH || (currentH === endH && currentM
< endM)`. The extra `Nat` argument is recursion fuel; the fuel chosen in
`generateSlots` strictly exceeds the number of loop iterations (each pair
of iterations increases `currentH`, and the loop exits once `currentH`
exceeds `endH`), as `slotLoop_fuel_stable` makes precise, so the bounded
recursion agrees with the unbounded source loop. -/
def slotLoop (endH endM : Nat) : Nat → Nat → Nat → List (Nat × Nat)
  | 0, _, _ => []
  | fuel + 1, currentH, currentM =>
    if currentH < endH || (currentH == endH && currentM < endM) then
      (currentH, currentM) ::
        (if 60 ≤ currentM + 30 then slotLoop endH endM fuel (currentH + 1) 0
         else slotLoop endH endM fuel currentH (currentM + 30))
    else []

/-- Slot generation for a working-hours window, as parsed from
`working_hours_start` / `working_hours_end` (`[startH, startM]`,
`[endH, endM]`). -/
def generateSlots (startH startM endH endM : Nat) : List (Nat × Nat) :=
  slotLoop endH endM (2 * endH + 4) startH startM

/-- An upper bound on the remaining iterations of the slot loop from state
`(h, m)`. -/
def slotFuelBound (endH h m : Nat) : Nat :=
  2 * (endH + 1 - h) + (if m < 30 then 1 else 0)

/-- One-step unfolding of `slotLoop` at positive fuel. -/
theorem slotLoop_succ (endH endM fuel h m : Nat) :
    slotLoop endH endM (fuel + 1) h m =
      if (decide (h < endH) || (h == endH && decide (m < endM))) = true then
        (h, m) :: (if 60 ≤ m + 30 then slotLoop endH endM fuel (h + 1) 0
                   else slotLoop endH endM fuel h (m + 30))
      else [] := rfl

/-- Once the fuel is at least `slotFuelBound`, adding more fuel does not
change the result: the bounded recursion has converged to the source
loop's value. -/
theorem slotLoop_fuel_stable (endH endM : Nat) :
    ∀ fuel h m, slotFuelBound endH h m ≤ fuel →
      slotLoop endH endM fuel h m = slotLoop endH endM (fuel + 1) h m := by
  intro fuel
  induction fuel with
  | zero =>
    intro h m hb
    unfold slotFuelBound at hb
    have hh : endH + 1 ≤ h := by
      by_contra hcon
      push_neg at hcon
      have : 1 ≤ 2 * (endH + 1 - h) := by omega
      split at hb <;> omega
    have hguard : (decide (h < endH) || (h == endH && decide (m < endM))) = false := by
      simp only [Bool.or_eq_false_iff, Bool.and_eq_false_iff,
        decide_eq_false_iff_not, beq_eq_false_iff_ne, ne_eq]
      omega
    rw [show slotLoop endH endM 0 h m = [] from rfl, slotLoop_succ, hguard]
    simp
  | succ fuel ih =>
    intro h m hb
    rw [slotLoop_succ, slotLoop_succ]
    by_cases hguard : (decide (h < endH) || (h == endH && decide (m < endM))) = true
    · have hh : h ≤ endH := by
        simp only [Bool.or_eq_true, Bool.and_eq_true, decide_eq_true_eq,
          beq_iff_eq] at hguard
        omega
      rw [if_pos hguard, if_pos hguard]
      by_cases hm : 60 ≤ m + 30
      · rw [if_pos hm, if_pos hm]
        have hrec : slotFuelBound endH (h + 1) 0 ≤ fuel := by
          unfold slotFuelBound at *
          split at hb <;> simp <;> omega
        rw [ih _ _ hrec]
      · rw [if_neg hm, if_neg hm]
        have hrec : slotFuelBound endH h (m + 30) ≤ fuel := by
          unfold slotFuelBound at *
          have h30 : ¬ m + 30 < 30 := by omega
          have hlt : m < 30 := by omega
          simp only [h30, if_false, hlt, if_true] at *
          omega
        rw [ih _ _ hrec]
    · rw [if_neg hguard, if_neg hguard]

/-- Closed form of the slot loop when the state and the end time are
aligned to the half-hour grid: starting at total minutes `t = 60*h + m`
with `t + 30*n` equal to the end, the loop emits exactly the `n` grid
points `t, t+30, …, t+30*(n-1)` (as hour/minute pairs). -/
theorem slotLoop_closed (endH endM : Nat) (hEM : endM = 0 ∨ endM = 30) :
    ∀ n fuel h m, (m = 0 ∨ m = 30) → n ≤ fuel →
      60 * h + m + 30 * n = 60 * endH + endM →
      slotLoop endH endM fuel h m =
        (List.range n).map
          (fun i => ((60 * h + m + 30 * i) / 60, (60 * h + m + 30 * i) % 60)) := by
  intro n
  induction n with
  | zero =>
    intro fuel h m hm _ htot
    have hguard : (decide (h < endH) || (h == endH && decide (m < endM))) = false := by
      simp only [Bool.or_eq_false_iff, Bool.and_eq_false_iff,
        decide_eq_false_iff_not, beq_eq_false_iff_ne, ne_eq]
      omega
    cases fuel with
    | zero => simp [slotLoop]
    | succ f =>
      rw [slotLoop_succ, hguard]
      simp
  | succ n ih =>
    intro fuel h m hm hfuel htot
    obtain ⟨f, rfl⟩ : ∃ f, fuel = f + 1 := ⟨fuel - 1, by omega⟩
    have hlt : 60 * h + m < 60 * endH + endM := by omega
    have hguard : (decide (h < endH) || (h == endH && decide (m < endM))) = true := by
      simp only [Bool.or_eq_true, Bool.and_eq_true, decide_eq_true_eq, beq_iff_eq]
      omega
    rw [slotLoop_succ, if_pos hguard]
    have hrange : (List.range (n + 1)).map
        (fun i => ((60 * h + m + 30 * i) / 60, (60 * h + m + 30 * i) % 60)) =
        ((60 * h + m + 30 * 0) / 60, (60 * h + m + 30 * 0) % 60) ::
          (List.range n).map
            (fun i => ((60 * h + m + 30 * (i + 1)) / 60,
                       (60 * h + m + 30 * (i + 1)) % 60)) := by
      rw [List.range_succ_eq_map, List.map_cons, List.map_map]
      rfl
    rw [hrange]
    have hm60 : m < 60 := by omega
    have hhead : ((60 * h + m + 30 * 0) / 60, (60 * h + m + 30 * 0) % 60) = (h, m) := by
      have h1 : (60 * h + m + 30 * 0) / 60 = h := by omega
      have h2 : (60 * h + m + 30 * 0) % 60 = m := by omega
      rw [h1, h2]
    rw [hhead]
    rcases hm with rfl | rfl
    · have h60 : ¬ 60 ≤ 0 + 30 := by omega
      rw [if_neg h60]
      rw [ih f h 30 (Or.inr rfl) (by omega) (by omega)]
      refine congrArg _ (List.map_congr_left ?_)
      intro i _
      have e : 60 * h + 30 + 30 * i = 60 * h + 0 + 30 * (i + 1) := by omega
      rw [e]
    · have h60 : 60 ≤ 30 + 30 := by omega
      rw [if_pos h60]
      rw [ih f (h + 1) 0 (Or.inl rfl) (by omega) (by omega)]
      refine congrArg _ (List.map_congr_left ?_)
      intro i _
      have e : 60 * (h + 1) + 0 + 30 * i = 60 * h + 30 + 30 * (i + 1) := by omega
      rw [e]

/-- C5 counterexample: for the window 09:45-10:45 (start < end but not on
the half-hour grid) the loop emits 3 slots — 09:45, 10:00, 10:30 — while
`(end - start) / 30min = 2`; the generated times are not spaced 30 minutes
apart (the 10:15 grid point is skipped and 09:45+30min never occurs). -/
theorem generateSlots_unaligned_count :
    60 * 9 + 45 < 60 * 10 + 45 ∧
    generateSlots 9 45 10 45 = [(9, 45), (10, 0), (10, 30)] ∧
    (generateSlots 9 45 10 45).length = 3 ∧
    ((60 * 10 + 45) - (60 * 9 + 45)) / 30 = 2 := by
  refine ⟨by omega, ?_, ?_, by norm_num⟩ <;> rfl

/-- C5 (amended): for every working-hours window `[start, end)` with
`start < end` whose start and end minutes lie on the half-hour grid
(minutes 0 or 30), slot generation produces exactly `(end - start) / 30min`
slots, strictly increasing, and none outside `[start, end)`. -/
theorem generateSlots_aligned_spec (startH startM endH endM : Nat)
    (hs : startM = 0 ∨ startM = 30) (he : endM = 0 ∨ endM = 30)
    (hlt : 60 * startH + startM < 60 * endH + endM) :
    (generateSlots startH startM endH endM).length =
      ((60 * endH + endM) - (60 * startH + startM)) / 30 ∧
    List.Pairwise (fun a b : Nat × Nat => 60 * a.1 + a.2 < 60 * b.1 + b.2)
      (generateSlots startH startM endH endM) ∧
    ∀ s ∈ generateSlots startH startM endH endM,
      60 * startH + startM ≤ 60 * s.1 + s.2 ∧
      60 * s.1 + s.2 < 60 * endH + endM := by
  set t0 := 60 * startH + startM with ht0
  set t1 := 60 * endH + endM with ht1
  have hdvd0 : t0 % 30 = 0 := by omega
  have hdvd1 : t1 % 30 = 0 := by omega
  set n := (t1 - t0) / 30 with hn
  have htot : t0 + 30 * n = t1 := by omega
  have hfuel : n ≤ 2 * endH + 4 := by omega
  have hclosed := slotLoop_closed endH endM he n (2 * endH + 4) startH startM hs
    hfuel (by omega)
  have hgen : generateSlots startH startM endH endM =
      (List.range n).map (fun i => ((t0 + 30 * i) / 60, (t0 + 30 * i) % 60)) := by
    rw [generateSlots, hclosed]
  refine ⟨?_, ?_, ?_⟩
  · rw [hgen, List.length_map, List.length_range]
  · rw [hgen]
    refine List.Pairwise.map _ ?_ (List.pairwise_lt_range n)
    intro i j hij
    have hi : 60 * ((t0 + 30 * i) / 60) + (t0 + 30 * i) % 60 = t0 + 30 * i := by
      omega
    have hj : 60 * ((t0 + 30 * j) / 60) + (t0 + 30 * j) % 60 = t0 + 30 * j := by
      omega
    simp only [hi, hj]
    omega
  · intro s hs'
    rw [hgen] at hs'
    simp only [List.mem_map, List.mem_range] at hs'
    obtain ⟨i, hi, rfl⟩ := hs'
    have hre : 60 * ((t0 + 30 * i) / 60) + (t0 + 30 * i) % 60 = t0 + 30 * i := by
      omega
    constructor <;> simp only [hre] <;> omega

/-- Witness for the amended C5 on the window 09:00-17:00. -/
theorem generateSlots_aligned_spec_witness :
    (generateSlots 9 0 17 0).length = 16 ∧
    ∀ s ∈ generateSlots 9 0 17 0, 60 * 9 ≤ 60 * s.1 + s.2 := by
  have h := generateSlots_aligned_spec 9 0 17 0 (Or.inl rfl) (Or.inl rfl)
    (by omega)
  refine ⟨by rw [h.1], fun s hs => ?_⟩
  have := (h.2.2 s hs).1
  omega

/-! ### Date normalization
Embeds `smartDateParser` from `rescheduleAppointment.ts` lines 15-52. -/

/-- The current date as JS `new Date()` exposes it: `getFullYear()`,
`getMonth()` (0-based) and `getDate()`. -/
structure NowDate where
  year : Int
  month : Int
  day : Int

/-- Value of the longest leading decimal-digit run, if nonempty. -/
def digitRunVal (l : List Char) : Option Nat :=
  match l.takeWhile Char.isDigit with
  | [] => none
  | ds => some (ds.foldl (fun a c => a * 10 + (c.toNat - 48)) 0)

/-- JS `parseInt(s)` in base 10: skip leading whitespace, optional sign,
then the longest digit run; `none` models `NaN`. (The hexadecimal `0x`
prefix form is not modelled; no call site can reach it with a hex-shaped
argument that matters to the properties proved here.) -/
def parseIntJS (s : String) : Option Int :=
  match (jsTrim s).data with
  | '-' :: rest => (digitRunVal rest).map (fun n => -(n : Int))
  | '+' :: rest => (digitRunVal rest).map (fun n => (n : Int))
  | l => (digitRunVal l).map (fun n => (n : Int))

/-- JS `s.padStart(2, "0")`. -/
def padStart2 (s : String) : String :=
  if 2 ≤ s.length then s else String.mk (List.replicate (2 - s.length) '0') ++ s

/-- The regex `/^\d{1,2}$/`. -/
def isTwoDigitNum (s : String) : Bool :=
  (s.length == 1 || s.length == 2) && s.data.all Char.isDigit

/-- The regex `/^\d{4}-\d{2}-\d{2}$/`. -/
def isIsoDate (s : String) : Bool :=
  match s.data with
  | [y1, y2, y3, y4, s1, m1, m2, s2, d1, d2] =>
    y1.isDigit && y2.isDigit && y3.isDigit && y4.isDigit && s1 == '-' &&
    m1.isDigit && m2.isDigit && s2 == '-' && d1.isDigit && d2.isDigit
  | _ => false

/-- `smartDateParser` from `rescheduleAppointment.ts` lines 15-52. The
library call `new Date(y, m, d).toLocaleDateString("en-CA")` (external to
the repository) is abstracted as the oracle `mk`; a `none` argument is a
`NaN` component (failed `parseInt`). The source's slash block falls
through to the ISO test when the segment count is neither 3 nor 2, which
the nested conditionals below reproduce. -/
def smartDateParser (mk : Option Int → Option Int → Option Int → String)
    (now : NowDate) (dateInput : String) : Option String :=
  if dateInput == "" then none
  else
    let input := jsToLower (jsTrim dateInput)
    if input == "tomorrow" then some (mk (some now.year) (some now.month) (some (now.day + 1)))
    else if input == "today" then some (mk (some now.year) (some now.month) (some now.day))
    else if isTwoDigitNum input then some (mk (some now.year) (some now.month) (parseIntJS input))
    else if containsCh input '/' then
      let parts := jsSplit '/' input
      if parts.length == 3 then
        let day := padStart2 (parts.getD 0 "")
        let month := padStart2 (parts.getD 1 "")
        let year0 := parts.getD 2 ""
        let year := if year0.length == 2 then "20" ++ year0 else year0
        some (year ++ "-" ++ month ++ "-" ++ day)
      else if parts.length == 2 then
        some (mk (some now.year) ((parseIntJS (parts.getD 1 "")).map (fun x => x - 1))
          (parseIntJS (parts.getD 0 "")))
      else if isIsoDate input then some input
      else none
    else if isIsoDate input then some input
    else none

/-- The input shapes `smartDateParser` recognizes, on the trimmed,
lowercased input. -/
def recognizedDatePattern (s : String) : Bool :=
  s == "tomorrow" || s == "today" || isTwoDigitNum s ||
  (containsCh s '/' &&
    ((jsSplit '/' s).length == 3 || (jsSplit '/' s).length == 2)) ||
  isIsoDate s

/-- Gregorian leap-year test. -/
def isLeapYear (y : Nat) : Bool :=
  (y % 4 == 0 && y % 100 != 0) || y % 400 == 0

/-- Number of days in month `m` (1-based) of year `y`. -/
def daysInMonth (y m : Nat) : Nat :=
  if m == 2 then (if isLeapYear y then 29 else 28)
  else if m == 4 || m == 6 || m == 9 || m == 11 then 30
  else 31

/-- Does the calendar date `y-m-d` exist? -/
def validCalendarDate (y m d : Nat) : Bool :=
  decide (1 ≤ m) && decide (m ≤ 12) && decide (1 ≤ d) &&
  decide (d ≤ daysInMonth y m)

/-- C6 counterexample: the slash-form input "31/02/26" matches the
recognized `D/M/YY` pattern and the resulting calendar date 2026-02-31
does not exist, yet the parser produces the date string instead of
failing. -/
theorem smartDateParser_accepts_nonexistent_date :
    smartDateParser (fun _ _ _ => "") ⟨2026, 0, 15⟩ "31/02/26" =
      some "2026-02-31" ∧
    validCalendarDate 2026 2 31 = false := by
  constructor
  · decide
  · decide

/-- C6 (amended): date normalization produces no date exactly for inputs
matching none of the recognized patterns ("today"/"tomorrow", a 1-2 digit
day, a slash form with 2 or 3 segments, ISO `YYYY-MM-DD`); every
pattern-matching input produces a date with no calendar-validity check. -/
theorem smartDateParser_none_iff
    (mk : Option Int → Option Int → Option Int → String) (now : NowDate)
    (input : String) :
    smartDateParser mk now input = none ↔
      recognizedDatePattern (jsToLower (jsTrim input)) = false := by
  by_cases hempty : input == ""
  · have : input = "" := by simpa using hempty
    subst this
    exact ⟨fun _ => by decide, fun _ => rfl⟩
  · unfold smartDateParser recognizedDatePattern
    rw [if_neg hempty]
    simp only []
    generalize jsToLower (jsTrim input) = s
    cases hb1 : (s == "tomorrow") with
    | true =>
      rw [if_pos rfl]
      exact iff_of_false (Option.some_ne_none _) (by simp)
    | false =>
      rw [if_neg Bool.false_ne_true]
      cases hb2 : (s == "today") with
      | true =>
        rw [if_pos rfl]
        exact iff_of_false (Option.some_ne_none _) (by simp)
      | false =>
        rw [if_neg Bool.false_ne_true]
        cases hb3 : isTwoDigitNum s with
        | true =>
          rw [if_pos rfl]
          exact iff_of_false (Option.some_ne_none _) (by simp)
        | false =>
          rw [if_neg Bool.false_ne_true]
          cases hb4 : containsCh s '/' with
          | true =>
            rw [if_pos rfl]
            cases hb5 : ((jsSplit '/' s).length == 3) with
            | true =>
              rw [if_pos rfl]
              exact iff_of_false (Option.some_ne_none _) (by simp)
            | false =>
              rw [if_neg Bool.false_ne_true]
              cases hb6 : ((jsSplit '/' s).length == 2) with
              | true =>
                rw [if_pos rfl]
                exact iff_of_false (Option.some_ne_none _) (by simp)
              | false =>
                rw [if_neg Bool.false_ne_true]
                cases hb7 : isIsoDate s with
                | true =>
                  rw [if_pos rfl]
                  exact iff_of_false (Option.some_ne_none _) (by simp)
                | false =>
                  rw [if_neg Bool.false_ne_true]
                  exact iff_of_true rfl rfl
          | false =>
            rw [if_neg Bool.false_ne_true]
            cases hb7 : isIsoDate s with
            | true =>
              rw [if_pos rfl]
              exact iff_of_false (Option.some_ne_none _) (by simp)
            | false =>
              rw [if_neg Bool.false_ne_true]
              exact iff_of_true rfl rfl

/-! ### Store text matching and the booking data model -/

/-- SQL `LIKE` pattern matching over characters: `%` matches any run,
`_` matches exactly one character, anything else matches itself. (The
backslash escape form is not used by any embedded query.) A leading `%`
is matched by trying every suffix of the text. -/
def likeMatchCore : List Char → List Char → Bool
  | [], t => t.isEmpty
  | '%' :: p, t => t.tails.any (fun suf => likeMatchCore p suf)
  | '_' :: p, t =>
    match t with
    | [] => false
    | _ :: t2 => likeMatchCore p t2
  | c :: p, t =>
    match t with
    | [] => false
    | d :: t2 => c == d && likeMatchCore p t2

/-- Supabase `.ilike(column, "%" + pat + "%")`: case-insensitive `LIKE`
with the pattern wrapped in `%`. -/
def ilikeContains (pat : String) (text : String) : Bool :=
  likeMatchCore ('%' :: (jsToLower pat).data ++ ['%']) (jsToLower text).data

/-- JS `s.replace(/Dr\./gi, "")`: remove every case-insensitive `Dr.`
occurrence, scanning left to right. -/
def removeDr : List Char → List Char
  | a :: b :: c :: rest =>
    if a.toLower == 'd' && b.toLower == 'r' && c == '.' then removeDr rest
    else a :: removeDr (b :: c :: rest)
  | l => l

def removeDrStr (s : String) : String :=
  String.mk (removeDr s.data)

/-- JS `s.startsWith(c)` for one character. -/
def startsWithCh (c : Char) (s : String) : Bool :=
  match s.data with
  | x :: _ => x == c
  | [] => false

/-- A row of the `doctors` table as the booking handlers read it. -/
structure Doctor where
  id : Nat
  name : String
deriving DecidableEq

/-- A row of the `appointments` table. -/
structure Appointment where
  id : Nat
  patient_name : String
  doctor_id : Nat
  appointment_date : String
  appointment_time : String
  phone : String
  status : String
  updated_at : String
deriving DecidableEq

/-- The backing store visible to the handlers. The store itself is assumed
to execute queries successfully here; infrastructure failures are modelled
separately through the retry layer. -/
structure DB where
  doctors : List Doctor
  appointments : List Appointment
deriving DecidableEq

/-! ### create-booking
Embeds the current `bookAppointment.ts` handler (the third draft in the
file, lines 204-369): validation, phone formatting, anti-hallucination
doctor resolution with the ambiguity guard (lines 253-271), the confirmed
double-booking check and insert (lines 273-310). The fire-and-forget SMS
call has no effect on the store and is not modelled. -/

structure BookRequest where
  doctorName : String
  patientName : String
  date : String
  time : String
  phone : String

inductive BookOutcome
  | missing
  | doctorNotFound
  | ambiguous
  | conflict
  | serverError
  | success
deriving DecidableEq

/-- Phone formatting for India (`bookAppointment.ts` lines 226-231). -/
def formatPhone (phone : String) : String :=
  let p := jsTrim phone
  if p.length == 10 then "+91" ++ p
  else if !startsWithCh '+' p then "+" ++ p
  else p

/-- `searchName`: the doctor name with `Dr.` stripped and trimmed. -/
def bookSearchName (doctorName : String) : String :=
  jsTrim (removeDrStr doctorName)

/-- The `.ilike('name', "%" + searchName + "%")` candidate list. -/
def bookMatching (doctors : List Doctor) (doctorName : String) : List Doctor :=
  doctors.filter (fun d => ilikeContains (bookSearchName doctorName) d.name)

/-- The `strictMatch` lookup: the first candidate whose lowercased name
contains the lowercased search term as a plain substring. -/
def bookStrictMatch (ds : List Doctor) (searchName : String) : Option Doctor :=
  ds.find? (fun d => substrB (jsToLower searchName) (jsToLower d.name))

inductive DoctorResolution
  | notFound
  | ambiguous
  | found (d : Doctor)
deriving DecidableEq

/-- Doctor resolution of `bookAppointment.ts` lines 237-271: no candidate
is 404; several candidates with no strict match is the ambiguity rejection;
otherwise the strict match, or the single / first candidate, is used. -/
def bookResolveDoctor (doctors : List Doctor) (doctorName : String) :
    DoctorResolution :=
  match bookMatching doctors doctorName with
  | [] => .notFound
  | [d] => .found d
  | ds =>
    match bookStrictMatch ds (bookSearchName doctorName) with
    | some d => .found d
    | none => .ambiguous

/-- The confirmed-booking existence query at an exact
(doctor, date, time) key (`bookAppointment.ts` lines 274-281). -/
def bookExisting (appts : List Appointment) (did : Nat) (date time : String) :
    List Appointment :=
  appts.filter (fun a => a.doctor_id == did && a.appointment_date == date &&
    a.appointment_time == time && a.status == "confirmed")

/-- Number of confirmed bookings at a (doctor, date, time) key. -/
def confirmedCount (appts : List Appointment) (did : Nat) (date time : String) :
    Nat :=
  (bookExisting appts did date time).length

/-- The `bookAppointment.ts` handler on a given store; `newId` is the row
id the store would assign to an inserted appointment. `.maybeSingle()`
returns an error when more than one row matches, which the source throws
(500); one match is the 409 conflict; zero matches proceed to the insert. -/
def bookHandler (db : DB) (req : BookRequest) (newId : Nat) :
    BookOutcome × DB :=
  if (req.doctorName == "" || req.patientName == "" || req.date == "" ||
      req.time == "" || req.phone == "") = true then
    (.missing, db)
  else
    match bookResolveDoctor db.doctors req.doctorName with
    | .notFound => (.doctorNotFound, db)
    | .ambiguous => (.ambiguous, db)
    | .found d =>
      if 1 < (bookExisting db.appointments d.id req.date req.time).length then
        (.serverError, db)
      else if (bookExisting db.appointments d.id req.date req.time).length == 1 then
        (.conflict, db)
      else
        (.success, ⟨db.doctors, db.appointments ++
          [⟨newId, req.patientName, d.id, req.date, req.time,
            formatPhone req.phone, "confirmed", ""⟩]⟩)

/-- A successful `bookAppointment` run implies: validation passed, the
doctor resolved, the key was free, and the store gained exactly the new
confirmed row. -/
theorem bookHandler_success_shape (db : DB) (req : BookRequest) (newId : Nat)
    (h : (bookHandler db req newId).1 = .success) :
    ¬ (req.doctorName == "" || req.patientName == "" || req.date == "" ||
        req.time == "" || req.phone == "") = true ∧
    ∃ d, bookResolveDoctor db.doctors req.doctorName = .found d ∧
      bookExisting db.appointments d.id req.date req.time = [] ∧
      (bookHandler db req newId).2 = ⟨db.doctors, db.appointments ++
        [⟨newId, req.patientName, d.id, req.date, req.time,
          formatPhone req.phone, "confirmed", ""⟩]⟩ := by
  by_cases hmiss : (req.doctorName == "" || req.patientName == "" ||
      req.date == "" || req.time == "" || req.phone == "") = true
  · exfalso
    unfold bookHandler at h
    rw [if_pos hmiss] at h
    simp at h
  · unfold bookHandler at h ⊢
    rw [if_neg hmiss] at h ⊢
    cases hres : bookResolveDoctor db.doctors req.doctorName with
    | notFound => rw [hres] at h; simp at h
    | ambiguous => rw [hres] at h; simp at h
    | found d =>
      rw [hres] at h
      simp only [] at h ⊢
      by_cases hgt : 1 < (bookExisting db.appointments d.id req.date req.time).length
      · rw [if_pos hgt] at h; simp at h
      · rw [if_neg hgt] at h ⊢
        by_cases heq : ((bookExisting db.appointments d.id req.date
            req.time).length == 1) = true
        · rw [if_pos heq] at h; simp at h
        · rw [if_neg heq] at h ⊢
          refine ⟨hmiss, d, rfl, ?_, rfl⟩
          have hlen : (bookExisting db.appointments d.id req.date
              req.time).length = 0 := by
            simp only [beq_iff_eq] at heq
            omega
          exact List.length_eq_zero.mp hlen

/-- The new appointment row inserted by a successful booking. -/
def bookNewRow (req : BookRequest) (newId : Nat) (did : Nat) : Appointment :=
  ⟨newId, req.patientName, did, req.date, req.time,
    formatPhone req.phone, "confirmed", ""⟩

theorem bookExisting_append_match (appts : List Appointment)
    (req : BookRequest) (newId did : Nat) :
    bookExisting (appts ++ [bookNewRow req newId did]) did req.date req.time =
      bookExisting appts did req.date req.time ++ [bookNewRow req newId did] := by
  unfold bookExisting bookNewRow
  rw [List.filter_append]
  simp

theorem bookExisting_append_other (appts : List Appointment)
    (req : BookRequest) (newId did : Nat) (did2 : Nat) (date2 time2 : String)
    (hne : ¬(did2 = did ∧ date2 = req.date ∧ time2 = req.time)) :
    bookExisting (appts ++ [bookNewRow req newId did]) did2 date2 time2 =
      bookExisting appts did2 date2 time2 := by
  unfold bookExisting bookNewRow
  rw [List.filter_append]
  have hrow : (fun a : Appointment => a.doctor_id == did2 &&
      a.appointment_date == date2 && a.appointment_time == time2 &&
      a.status == "confirmed")
      ⟨newId, req.patientName, did, req.date, req.time,
        formatPhone req.phone, "confirmed", ""⟩ = false := by
    rw [Bool.eq_false_iff]
    intro hcon
    simp only [Bool.and_eq_true, beq_iff_eq] at hcon
    exact hne ⟨hcon.1.1.1.symm, hcon.1.1.2.symm, hcon.1.2.symm⟩
  have hcond : (did == did2 && req.date == date2 && req.time == time2) = false := by
    rw [Bool.eq_false_iff]
    intro hcon
    simp only [Bool.and_eq_true, beq_iff_eq] at hcon
    exact hne ⟨hcon.1.1.symm, hcon.1.2.symm, hcon.2.symm⟩
  simp [List.filter_singleton, hcond]

/-- C1: create-booking preserves the at-most-one-confirmed-booking
invariant per (provider, date, time): when a first call succeeds, a second
call with the same provider, date and time returns the Conflict outcome,
inserts nothing, and the store holds exactly one confirmed booking at that
key; moreover any store satisfying the invariant still satisfies it after
the successful insert. -/
theorem bookAppointment_double_booking_guard (db : DB) (req : BookRequest)
    (id1 id2 : Nat)
    (hinv : ∀ did date time, confirmedCount db.appointments did date time ≤ 1)
    (hsucc : (bookHandler db req id1).1 = .success) :
    (bookHandler (bookHandler db req id1).2 req id2).1 = .conflict ∧
    (bookHandler (bookHandler db req id1).2 req id2).2 =
      (bookHandler db req id1).2 ∧
    (∀ did date time,
      confirmedCount (bookHandler db req id1).2.appointments did date time ≤ 1) ∧
    ∃ d, bookResolveDoctor db.doctors req.doctorName = .found d ∧
      confirmedCount (bookHandler db req id1).2.appointments d.id req.date
        req.time = 1 := by
  obtain ⟨hmiss, d, hres, hfree, hdb1⟩ := bookHandler_success_shape db req id1 hsucc
  have hrow : (⟨id1, req.patientName, d.id, req.date, req.time,
      formatPhone req.phone, "confirmed", ""⟩ : Appointment) =
      bookNewRow req id1 d.id := rfl
  rw [hdb1, hrow]
  have hkey : bookExisting (db.appointments ++ [bookNewRow req id1 d.id]) d.id
      req.date req.time = [bookNewRow req id1 d.id] := by
    rw [bookExisting_append_match, hfree, List.nil_append]
  have hsecond : bookHandler ⟨db.doctors, db.appointments ++
      [bookNewRow req id1 d.id]⟩ req id2 =
      (.conflict, ⟨db.doctors, db.appointments ++ [bookNewRow req id1 d.id]⟩) := by
    unfold bookHandler
    rw [if_neg hmiss]
    simp only []
    rw [hres]
    simp only [hkey, List.length_singleton]
    rw [if_neg (by omega)]
    simp
  refine ⟨by rw [hsecond], by rw [hsecond], ?_, d, hres, ?_⟩
  · intro did date time
    by_cases hk : did = d.id ∧ date = req.date ∧ time = req.time
    · obtain ⟨rfl, rfl, rfl⟩ := hk
      simp only [confirmedCount, hkey, List.length_singleton, le_refl]
    · simp only [confirmedCount]
      rw [bookExisting_append_other db.appointments req id1 d.id did date time hk]
      exact hinv did date time
  · simp only [confirmedCount, hkey, List.length_singleton]

/-- Store and request for the C1 witness. -/
def bookWitnessDB : DB :=
  ⟨[⟨1, "K. S. S. Aditya"⟩], []⟩

def bookWitnessReq : BookRequest :=
  ⟨"Dr. Aditya", "Sampath", "2026-01-23", "10:00", "9876543210"⟩

/-- Witness for C1: on a concrete store the first booking succeeds and the
second identical booking gets Conflict with exactly one confirmed row. -/
theorem bookAppointment_double_booking_guard_witness :
    (bookHandler (bookHandler bookWitnessDB bookWitnessReq 1).2
      bookWitnessReq 2).1 = BookOutcome.conflict ∧
    ∃ d, bookResolveDoctor bookWitnessDB.doctors bookWitnessReq.doctorName =
        DoctorResolution.found d ∧
      confirmedCount (bookHandler bookWitnessDB bookWitnessReq 1).2.appointments
        d.id bookWitnessReq.date bookWitnessReq.time = 1 := by
  have h := bookAppointment_double_booking_guard bookWitnessDB bookWitnessReq 1 2
    (fun did date time => by simp [confirmedCount, bookExisting, bookWitnessDB])
    (by decide)
  exact ⟨h.1, h.2.2.2⟩

/-! ### cancel-booking
Embeds the `cancelAppointment.ts` handler (lines 10-43). Note lines
29-39: the update has no `status` filter, the number of matched rows is
never inspected, and the handler reports success unconditionally when the
update call itself does not error. -/

structure CancelRequest where
  doctorName : String
  patientName : String
  date : String

inductive CancelOutcome
  | missing
  | doctorNotFound
  | success
deriving DecidableEq

/-- Doctor lookup of `cancelAppointment.ts` lines 19-27: `.single()`
succeeds only when exactly one row matches the ilike pattern. -/
def cancelResolveDoctor (doctors : List Doctor) (doctorName : String) :
    Option Doctor :=
  match doctors.filter (fun d => ilikeContains doctorName d.name) with
  | [d] => some d
  | _ => none

/-- The `cancelAppointment.ts` handler. The update targets every row
matching (doctor, fuzzy patient name, date) — confirmed or not — and the
response is success whether or not any row matched. -/
def cancelHandler (db : DB) (req : CancelRequest) : CancelOutcome × DB :=
  if (req.doctorName == "" || req.patientName == "" || req.date == "") = true then
    (.missing, db)
  else
    match cancelResolveDoctor db.doctors req.doctorName with
    | none => (.doctorNotFound, db)
    | some doctorData =>
      (.success, ⟨db.doctors, db.appointments.map (fun a =>
        if (a.doctor_id == doctorData.id &&
            ilikeContains req.patientName a.patient_name &&
            a.appointment_date == req.date) = true then
          { a with status := "cancelled" }
        else a)⟩)

/-- Store and request on which the C2 failure shows. -/
def cancelWitnessDB : DB :=
  ⟨[⟨1, "K. S. S. Aditya"⟩],
   [⟨1, "Sampath", 1, "2026-01-23", "10:00", "+919876543210", "confirmed", ""⟩]⟩

def cancelWitnessReq : CancelRequest :=
  ⟨"Aditya", "Sampath", "2026-01-23"⟩

/-- C2 evaluation at the failing input: the first cancel succeeds and
leaves no confirmed booking, yet a second cancel of the same appointment
still returns success — not the NotFound outcome the claim (and the
repository's own fix documentation) requires. There is no NotFound-style
outcome for appointments in this handler at all. -/
theorem cancelHandler_second_cancel_still_success :
    (cancelHandler cancelWitnessDB cancelWitnessReq).1 = CancelOutcome.success ∧
    ((cancelHandler cancelWitnessDB cancelWitnessReq).2.appointments.filter
      (fun a => a.status == "confirmed")) = [] ∧
    (cancelHandler (cancelHandler cancelWitnessDB cancelWitnessReq).2
      cancelWitnessReq).1 = CancelOutcome.success := by
  decide

/-! ### reschedule-booking
Embeds the current `rescheduleAppointment.ts` handler (first draft in the
file, lines 54-171): doctor lookup with `.limit(1)` (lines 61-74), date
normalization, phase-1 location of the confirmed booking (lines 86-105),
and the phase-2 conflict check plus in-place update (lines 107-153). -/

structure ReschedRequest where
  patientName : String
  doctorName : String
  oldDate : String
  newDate : String
  newTime : String

inductive ReschedOutcome
  | doctorNotFound
  | badOldDate
  | apptNotFound
  | conflict
  | updateFailed
  | needsNewSlot
  | success
deriving DecidableEq

/-- `cleanDocName`: first space-separated token with `Dr.` removed
(`rescheduleAppointment.ts` line 61). -/
def reschedCleanDocName (doctorName : String) : String :=
  removeDrStr ((jsSplit ' ' doctorName).getD 0 "")

/-- The `.ilike('name', %cleanDocName%).limit(1)` lookup. -/
def reschedDoctorSearch (doctors : List Doctor) (doctorName : String) :
    List Doctor :=
  (doctors.filter (fun d =>
    ilikeContains (reschedCleanDocName doctorName) d.name)).take 1

/-- Phase 1: locate the confirmed booking by (doctor, old date, fuzzy
patient name); `.maybeSingle()` yields a row only when exactly one
matches, and the handler treats its error case like no match. -/
def reschedLocate (appts : List Appointment) (did : Nat)
    (oldDate patientName : String) : List Appointment :=
  appts.filter (fun a => a.doctor_id == did &&
    a.appointment_date == oldDate && a.status == "confirmed" &&
    ilikeContains (jsTrim patientName) a.patient_name)

/-- The row update applied by phase 2: only the date, time and the
bookkeeping timestamp change. -/
def reschedUpdateRow (nd nt nowIso : String) (a : Appointment) : Appointment :=
  { a with appointment_date := nd, appointment_time := nt, updated_at := nowIso }

/-- The `rescheduleAppointment.ts` handler. `nowIso` stands for
`new Date().toISOString()`. The phase-2 entry condition mirrors the JS
truthiness test `resolvedNewDate && newTime && newTime.includes(':')`.
The conflict `.maybeSingle()` discards its error, so a conflict is seen
exactly when one confirmed row sits at the new key. The `.select()` after
the update returns the rows hit by the `id` filter. -/
def reschedHandler (mk : Option Int → Option Int → Option Int → String)
    (now : NowDate) (nowIso : String) (db : DB) (req : ReschedRequest) :
    ReschedOutcome × DB :=
  match reschedDoctorSearch db.doctors req.doctorName with
  | [] => (.doctorNotFound, db)
  | doctor :: _ =>
    match smartDateParser mk now req.oldDate with
    | none => (.badOldDate, db)
    | some resolvedOldDate =>
      if (resolvedOldDate == "") = true then (.badOldDate, db)
      else
        match reschedLocate db.appointments doctor.id resolvedOldDate
            req.patientName with
        | [existingAppt] =>
          match smartDateParser mk now req.newDate with
          | some nd =>
            if (nd != "" && req.newTime != "" &&
                containsCh req.newTime ':') = true then
              if ((bookExisting db.appointments doctor.id nd
                  req.newTime).length == 1) = true then
                (.conflict, db)
              else
                let db2 : DB := ⟨db.doctors, db.appointments.map (fun a =>
                  if (a.id == existingAppt.id) = true then
                    reschedUpdateRow nd req.newTime nowIso a
                  else a)⟩
                if ((db.appointments.filter
                    (fun a => a.id == existingAppt.id)).map
                    (reschedUpdateRow nd req.newTime nowIso)).isEmpty = true then
                  (.updateFailed, db2)
                else
                  (.success, db2)
            else (.needsNewSlot, db)
          | none => (.needsNewSlot, db)
        | _ => (.apptNotFound, db)

/-- C7: a successful phase-2 reschedule updates, in place and by row id,
only the date, time and bookkeeping timestamp of the booking located in
phase 1: the store keeps the same number of rows (no insert), and every
row keeps its id, patient name, phone, provider reference and status. -/
theorem reschedule_updates_in_place
    (mk : Option Int → Option Int → Option Int → String) (now : NowDate)
    (nowIso : String) (db : DB) (req : ReschedRequest)
    (h : (reschedHandler mk now nowIso db req).1 = .success) :
    ∃ (doctor : Doctor) (existingAppt : Appointment) (nd : String),
      reschedDoctorSearch db.doctors req.doctorName = [doctor] ∧
      existingAppt.status = "confirmed" ∧
      smartDateParser mk now req.newDate = some nd ∧
      (reschedHandler mk now nowIso db req).2.appointments =
        db.appointments.map (fun a =>
          if (a.id == existingAppt.id) = true then
            reschedUpdateRow nd req.newTime nowIso a
          else a) ∧
      (reschedHandler mk now nowIso db req).2.appointments.length =
        db.appointments.length ∧
      ∀ b ∈ (reschedHandler mk now nowIso db req).2.appointments,
        ∃ a ∈ db.appointments, b.id = a.id ∧
          b.patient_name = a.patient_name ∧ b.phone = a.phone ∧
          b.doctor_id = a.doctor_id ∧ b.status = a.status := by
  cases hds : reschedDoctorSearch db.doctors req.doctorName with
  | nil =>
    exfalso
    unfold reschedHandler at h
    rw [hds] at h
    simp at h
  | cons doctor rest =>
    have hrest : rest = [] := by
      have hlen : (doctor :: rest).length ≤ 1 := by
        rw [← hds]
        unfold reschedDoctorSearch
        exact List.length_take_le 1 _
      simp only [List.length_cons] at hlen
      exact List.length_eq_zero.mp (by omega)
    subst hrest
    unfold reschedHandler at h
    rw [hds] at h
    simp only [] at h
    cases hod : smartDateParser mk now req.oldDate with
    | none => rw [hod] at h; simp at h
    | some rod =>
      rw [hod] at h
      simp only [] at h
      by_cases hrod : (rod == "") = true
      · rw [if_pos hrod] at h; simp at h
      · rw [if_neg hrod] at h
        cases hloc : reschedLocate db.appointments doctor.id rod
            req.patientName with
        | nil => rw [hloc] at h; simp at h
        | cons ex rest2 =>
          cases rest2 with
          | cons b t => rw [hloc] at h; simp at h
          | nil =>
            rw [hloc] at h
            simp only [] at h
            cases hnd : smartDateParser mk now req.newDate with
            | none => rw [hnd] at h; simp at h
            | some nd =>
              rw [hnd] at h
              simp only [] at h
              by_cases hcnd : (nd != "" && req.newTime != "" &&
                  containsCh req.newTime ':') = true
              · rw [if_pos hcnd] at h
                by_cases hconf : ((bookExisting db.appointments doctor.id nd
                    req.newTime).length == 1) = true
                · rw [if_pos hconf] at h; simp at h
                · rw [if_neg hconf] at h
                  by_cases hup : ((db.appointments.filter
                      (fun a => a.id == ex.id)).map
                      (reschedUpdateRow nd req.newTime nowIso)).isEmpty = true
                  · rw [if_pos hup] at h; simp at h
                  · rw [if_neg hup] at h
                    have heq : reschedHandler mk now nowIso db req =
                        (.success, ⟨db.doctors, db.appointments.map (fun a =>
                          if (a.id == ex.id) = true then
                            reschedUpdateRow nd req.newTime nowIso a
                          else a)⟩) := by
                      unfold reschedHandler
                      rw [hds]
                      simp only []
                      rw [hod]
                      simp only []
                      rw [if_neg hrod, hloc]
                      simp only []
                      rw [hnd]
                      simp only []
                      rw [if_pos hcnd, if_neg hconf]
                      rw [if_neg hup]
                    have hexmem : ex ∈ reschedLocate db.appointments doctor.id
                        rod req.patientName := by
                      rw [hloc]
                      exact List.mem_singleton_self ex
                    have hstatus : ex.status = "confirmed" := by
                      unfold reschedLocate at hexmem
                      have := (List.mem_filter.mp hexmem).2
                      simp only [Bool.and_eq_true, beq_iff_eq] at this
                      exact this.1.2
                    refine ⟨doctor, ex, nd, rfl, hstatus, rfl, ?_, ?_, ?_⟩
                    · rw [heq]
                    · rw [heq]
                      simp [List.length_map]
                    · rw [heq]
                      intro bb hbb
                      simp only [List.mem_map] at hbb
                      obtain ⟨a, ha, rfl⟩ := hbb
                      refine ⟨a, ha, ?_⟩
                      by_cases hid : (a.id == ex.id) = true
                      · rw [if_pos hid]
                        unfold reschedUpdateRow
                        exact ⟨rfl, rfl, rfl, rfl, rfl⟩
                      · rw [if_neg hid]
                        exact ⟨rfl, rfl, rfl, rfl, rfl⟩
              · rw [if_neg hcnd] at h; simp at h

/-- Concrete data for the C7 witness. -/
def reschedWitnessDB : DB :=
  ⟨[⟨1, "K. S. S. Aditya"⟩],
   [⟨1, "Sampath", 1, "2026-01-23", "10:00", "+919876543210", "confirmed", ""⟩]⟩

def reschedWitnessReq : ReschedRequest :=
  ⟨"Sampath", "Aditya", "2026-01-23", "2026-01-24", "11:00"⟩

/-- Witness for C7 at a concrete successful reschedule. -/
theorem reschedule_updates_in_place_witness :
    (reschedHandler (fun _ _ _ => "") ⟨2026, 0, 15⟩ "2026-01-23T12:00:00.000Z"
      reschedWitnessDB reschedWitnessReq).2.appointments.length =
      reschedWitnessDB.appointments.length := by
  have h := reschedule_updates_in_place (fun _ _ _ => "") ⟨2026, 0, 15⟩
    "2026-01-23T12:00:00.000Z" reschedWitnessDB reschedWitnessReq (by decide)
  obtain ⟨_, _, _, _, _, _, _, hlen, _⟩ := h
  exact hlen

/-! ### Ambiguous provider resolution (C8) -/

/-- Store and request for the C8 counterexample: the query `J_hn` (the
SQL wildcard `_` matches one character) matches both stored doctors, and
neither name contains the literal query as a substring. -/
def reschedAmbDB : DB :=
  ⟨[⟨1, "Jahn A"⟩, ⟨2, "John B"⟩],
   [⟨1, "Sam", 1, "2026-01-23", "10:00", "+91", "confirmed", ""⟩]⟩

def reschedAmbReq : ReschedRequest :=
  ⟨"Sam", "J_hn", "2026-01-23", "", ""⟩

/-- C8 counterexample: at the reschedule call site the narrow name search
matches two candidates, none an exact substring superset of the query, yet
the handler does not report ambiguity — it silently proceeds with the
first candidate (via `.limit(1)`) and answers with a success-shaped
needs-new-slot response. -/
theorem reschedule_silently_picks_first :
    (reschedAmbDB.doctors.filter (fun d =>
      ilikeContains (reschedCleanDocName reschedAmbReq.doctorName) d.name)).length = 2 ∧
    (∀ d ∈ reschedAmbDB.doctors.filter (fun d =>
      ilikeContains (reschedCleanDocName reschedAmbReq.doctorName) d.name),
      substrB (jsToLower (reschedCleanDocName reschedAmbReq.doctorName))
        (jsToLower d.name) = false) ∧
    (reschedHandler (fun _ _ _ => "") ⟨2026, 0, 15⟩ "" reschedAmbDB
      reschedAmbReq).1 = ReschedOutcome.needsNewSlot := by
  refine ⟨by decide, by decide, by decide⟩

/-- C8 (amended): only the create-booking call site implements the
ambiguous-match guard: when its narrow search yields more than one
candidate and none contains the cleaned query as a case-insensitive
substring, it returns the ambiguity rejection and inserts nothing; the
reschedule call site instead limits the search to one row and silently
uses it (as the counterexample shows). -/
theorem bookAppointment_reports_ambiguity (db : DB) (req : BookRequest)
    (newId : Nat)
    (hmulti : 1 < (bookMatching db.doctors req.doctorName).length)
    (hnostrict : ∀ d ∈ bookMatching db.doctors req.doctorName,
      substrB (jsToLower (bookSearchName req.doctorName))
        (jsToLower d.name) = false)
    (hfields : (req.doctorName == "" || req.patientName == "" ||
      req.date == "" || req.time == "" || req.phone == "") = false) :
    (bookHandler db req newId).1 = .ambiguous ∧
    (bookHandler db req newId).2 = db := by
  have hres : bookResolveDoctor db.doctors req.doctorName = .ambiguous := by
    unfold bookResolveDoctor
    cases hm : bookMatching db.doctors req.doctorName with
    | nil => rw [hm] at hmulti; simp at hmulti
    | cons a t =>
      cases t with
      | nil => rw [hm] at hmulti; simp at hmulti
      | cons b t2 =>
        simp only []
        have hfind : bookStrictMatch (a :: b :: t2)
            (bookSearchName req.doctorName) = none := by
          unfold bookStrictMatch
          rw [List.find?_eq_none]
          intro x hx
          rw [hnostrict x (hm ▸ hx)]
          simp
        rw [hfind]
  constructor <;>
    · unfold bookHandler
      rw [if_neg (by rw [hfields]; exact Bool.false_ne_true), hres]

/-- Data for the amended C8 witness at the create-booking call site. -/
def bookAmbDB : DB :=
  ⟨[⟨1, "Jahn A"⟩, ⟨2, "John B"⟩], []⟩

def bookAmbReq : BookRequest :=
  ⟨"J_hn", "Sam", "2026-01-23", "10:00", "9876543210"⟩

/-- Witness for the amended C8: create-booking rejects the ambiguous
wildcard query without inserting. -/
theorem bookAppointment_reports_ambiguity_witness :
    (bookHandler bookAmbDB bookAmbReq 7).1 = BookOutcome.ambiguous ∧
    (bookHandler bookAmbDB bookAmbReq 7).2 = bookAmbDB := by
  exact bookAppointment_reports_ambiguity bookAmbDB bookAmbReq 7
    (by decide) (by decide) (by decide)

/-! ### list-availability
Embeds the `getAvailableSlots.ts` handler (lines 48-217) around the retry
layer: doctor lookup with retry, slot generation, the booked-times
subtraction whose query failure is swallowed (lines 124-142), and the
summary/detail response modes. The store is abstracted as per-attempt
outcome functions fed to `queryWithRetry`, mirroring the `try`/`catch`
around each query. -/

/-- A doctor row as selected by the slots handler. -/
structure DoctorRow where
  id : Nat
  name : String
  working_hours_start : String
  working_hours_end : String
deriving DecidableEq

/-- A supabase response object: `data` and `error` fields. A thrown
(network-level) failure is the `Except.error` of the attempt function
instead. -/
structure SbResult (α : Type) where
  data : Option α
  error : Option ErrInfo
deriving DecidableEq

structure SlotsRequest where
  doctorName : String
  date : String
  timeOfDay : String

inductive SlotsResp
  | badRequest
  | doctorNotFound
  | summary (periods : List (String × Nat))
  | detail (period : String) (slots : List String)
deriving DecidableEq

/-- JS `Number(s)` for the digit strings fed from `working_hours` columns
(`"09"`, `"30"`, ...): `some` of the decimal value on a nonempty digit
string, `none` (`NaN`) otherwise. -/
def jsNat (s : String) : Option Nat :=
  match s.data with
  | [] => none
  | l => if l.all Char.isDigit then
      some (l.foldl (fun a c => a * 10 + (c.toNat - 48)) 0)
    else none

/-- `const [h, m] = s.split(':').map(Number)` for a working-hours value.
A malformed value gives a `NaN` component, with which the source's loop
guard is false on its first test, so no slots are generated; that case is
modelled as `none` here and as the empty slot list in `doctorSlots`. -/
def parseHM (s : String) : Option (Nat × Nat) :=
  match jsSplit ':' s with
  | a :: b :: _ =>
    match jsNat a, jsNat b with
    | some h, some m => some (h, m)
    | _, _ => none
  | _ => none

/-- The `HH:MM` slot label (lines 114): both components padded to two
digits. -/
def timeString (h m : Nat) : String :=
  padStart2 (Nat.repr h) ++ ":" ++ padStart2 (Nat.repr m)

/-- The slot sequence for a doctor row (lines 105-122). -/
def doctorSlots (d : DoctorRow) : List (Nat × Nat) :=
  match parseHM d.working_hours_start, parseHM d.working_hours_end with
  | some (sh, sm), some (eh, em) => generateSlots sh sm eh em
  | _, _ => []

/-- Morning partition: hour below 12 (line 145). -/
def morningSlots (l : List (Nat × Nat)) : List (Nat × Nat) :=
  l.filter (fun s => decide (s.1 < 12))

/-- Afternoon partition: hour in [12, 17) (lines 146-149). -/
def afternoonSlots (l : List (Nat × Nat)) : List (Nat × Nat) :=
  l.filter (fun s => decide (12 ≤ s.1) && decide (s.1 < 17))

/-- Evening partition: hour at least 17 (line 150). -/
def eveningSlots (l : List (Nat × Nat)) : List (Nat × Nat) :=
  l.filter (fun s => decide (17 ≤ s.1))

/-- The summary-mode period list (lines 153-158): one entry per nonempty
partition with its count. -/
def summaryPeriods (available : List (Nat × Nat)) : List (String × Nat) :=
  (if 0 < (morningSlots available).length then
    [("morning", (morningSlots available).length)] else []) ++
  (if 0 < (afternoonSlots available).length then
    [("afternoon", (afternoonSlots available).length)] else []) ++
  (if 0 < (eveningSlots available).length then
    [("evening", (eveningSlots available).length)] else [])

/-- The detail-mode slot list for a requested period (lines 175-176):
morning or afternoon by name, anything else falls to evening. -/
def detailSlots (target : String) (available : List (Nat × Nat)) :
    List String :=
  (if target == "morning" then morningSlots available
   else if target == "afternoon" then afternoonSlots available
   else eveningSlots available).map (fun s => timeString s.1 s.2)

/-- The `getAvailableSlots.ts` handler. `docF` / `bookedF` give each
attempt's outcome for the doctor query and the booked-appointments query.
An absent `timeOfDay` is the empty string (JS falsy). Booked rows are the
raw `appointment_time` strings, shortened with `substring(0, 5)`. -/
def slotsHandler (docF : Nat → Except ErrInfo (SbResult DoctorRow))
    (bookedF : Nat → Except ErrInfo (SbResult (List String)))
    (req : SlotsRequest) : SlotsResp :=
  if (req.doctorName == "" || req.date == "") = true then .badRequest
  else
    match (queryWithRetry docF 3).result with
    | Except.error _ => .doctorNotFound
    | Except.ok r =>
      match r.error, r.data with
      | some _, _ => .doctorNotFound
      | none, none => .doctorNotFound
      | none, some doctor =>
        let slots := doctorSlots doctor
        let booked : List String :=
          match (queryWithRetry bookedF 3).result with
          | Except.ok rb => rb.data.getD []
          | Except.error _ => []
        let bookedTimes := booked.map (fun b => String.mk (b.data.take 5))
        let available := slots.filter
          (fun s => !(bookedTimes.contains (timeString s.1 s.2)))
        if (req.timeOfDay == "") = true then .summary (summaryPeriods available)
        else .detail (jsToLower req.timeOfDay)
          (detailSlots (jsToLower req.timeOfDay) available)

/-- C10: when the booked-appointments query fails even after all retries,
list-availability swallows the failure: it behaves exactly as if the
booked set were empty, and — when the doctor query succeeded and the
request is well-formed — returns the success-shaped summary or detail
response built from the full unfiltered slot list, instead of an
Unavailable outcome. -/
theorem slots_swallow_booked_failure
    (docF : Nat → Except ErrInfo (SbResult DoctorRow))
    (bookedF : Nat → Except ErrInfo (SbResult (List String)))
    (req : SlotsRequest) (e : ErrInfo)
    (hb : (queryWithRetry bookedF 3).result = Except.error e) :
    slotsHandler docF bookedF req =
      slotsHandler docF (fun _ => Except.ok ⟨some [], none⟩) req ∧
    ∀ d, (queryWithRetry docF 3).result = Except.ok ⟨some d, none⟩ →
      (req.doctorName == "" || req.date == "") = false →
      slotsHandler docF bookedF req =
        (if (req.timeOfDay == "") = true then
          SlotsResp.summary (summaryPeriods (doctorSlots d))
        else
          SlotsResp.detail (jsToLower req.timeOfDay)
            (detailSlots (jsToLower req.timeOfDay) (doctorSlots d))) := by
  have hok : (queryWithRetry
      (fun _ => Except.ok (⟨some [], none⟩ : SbResult (List String)))
      3).result = Except.ok ⟨some [], none⟩ := rfl
  constructor
  · unfold slotsHandler
    rw [hb, hok]
    rfl
  · intro d hdoc hfields
    unfold slotsHandler
    rw [hdoc, hb]
    rw [if_neg (by rw [hfields]; exact Bool.false_ne_true)]
    simp only []
    have hfilter : (doctorSlots d).filter
        (fun s => !((([] : List String).map
          (fun b => String.mk (b.data.take 5))).contains (timeString s.1 s.2))) =
        doctorSlots d := by
      apply List.filter_eq_self.mpr
      intro a _
      simp [List.contains]
    rw [hfilter]

/-- The doctor row and attempt functions for the C10 witness. -/
def slotsWitnessDoctor : DoctorRow :=
  ⟨1, "K. S. S. Aditya", "09:00", "11:00"⟩

def slotsWitnessDocF : Nat → Except ErrInfo (SbResult DoctorRow) :=
  fun _ => Except.ok ⟨some slotsWitnessDoctor, none⟩

def slotsWitnessBookedF : Nat → Except ErrInfo (SbResult (List String)) :=
  fun _ => Except.error ⟨"fetch failed: network unreachable", ""⟩

/-- Witness for C10: with every booked-query attempt failing on a network
error, the handler still answers with a success summary counting every
generated slot as available. -/
theorem slots_swallow_booked_failure_witness :
    slotsHandler slotsWitnessDocF slotsWitnessBookedF ⟨"Aditya", "2026-01-23", ""⟩ =
      SlotsResp.summary [("morning", 4)] := by
  have h := slots_swallow_booked_failure slotsWitnessDocF slotsWitnessBookedF
    ⟨"Aditya", "2026-01-23", ""⟩ ⟨"fetch failed: network unreachable", ""⟩ rfl
  rw [h.2 slotsWitnessDoctor rfl (by decide)]
  decide

end Sahay
